import Mathlib

/-!
Shallow embedding of the vault-core program
(src/programs/vault-core/src/lib.rs) and verification of its
natural-language specification.

Machine integers are modelled as Nat (u16/u64/u128) and Int (i64); every
place the Rust source performs a checked operation, a wrapping cast
(the Rust keyword as), or a saturating operation, the embedding performs
the corresponding explicit arithmetic on Nat/Int.  Fallible instructions
return Except VaultError: an error result models the host aborting and
reverting the whole operation, so the caller keeps the pre-state.

The SPL token transfer performed through CPI is an external collaborator
of this repository (spec section 6): it is modelled as failing exactly
when the source account balance is insufficient, and otherwise moving
the amount between the two balances.  Pubkeys are modelled as Nat, with
0 playing the role of Pubkey::default().
-/

deriving instance DecidableEq for Except

namespace VaultCore

/-- 2 ^ 64, the modulus of the Rust u64 type. -/
def U64 : Nat := 18446744073709551616

/-- 2 ^ 128, the modulus of the Rust u128 type. -/
def U128 : Nat := 340282366920938463463374607431768211456

/-- i64::MIN. -/
def I64_MIN : Int := -9223372036854775808

/-- i64::MAX. -/
def I64_MAX : Int := 9223372036854775807

/-- Precision scaling factor for reward calculations (1e12), REWARD_PRECISION
in the source. -/
def REWARD_PRECISION : Nat := 1000000000000

/-- Error type of the program (error_code enum VaultError in the source),
extended with the failure modes of the external collaborators: the SPL
token transfer and the opaque flash-loan callback. -/
inductive VaultError where
  | InsufficientShares
  | InvalidVault
  | InvalidUserPosition
  | InvalidTokenMint
  | InvalidAmount
  | DivisionByZero
  | MathOverflow
  | InsufficientVaultBalance
  | RewardRateNotSet
  | InsufficientRewardBalance
  | RewardVaultMismatch
  | InvalidRewardMint
  | FlashLoanNotConfigured
  | InvalidFlashLoanAmount
  | CallbackNotAllowlisted
  | InsufficientRepayment
  | InvalidFeeTreasury
  | TokenTransferFailed
  | CallbackFailed
  deriving Repr, DecidableEq

/-- Rust u64 checked_add, with None mapped to MathOverflow as in the source. -/
def u64CheckedAdd (a b : Nat) : Except VaultError Nat :=
  if a + b < U64 then .ok (a + b) else .error .MathOverflow

/-- Rust u64 checked_sub, with None mapped to MathOverflow as in the source. -/
def u64CheckedSub (a b : Nat) : Except VaultError Nat :=
  if b ≤ a then .ok (a - b) else .error .MathOverflow

/-- Rust u128 checked_mul, with None mapped to MathOverflow as in the source. -/
def u128CheckedMul (a b : Nat) : Except VaultError Nat :=
  if a * b < U128 then .ok (a * b) else .error .MathOverflow

/-- Rust u128 checked_add, with None mapped to MathOverflow as in the source. -/
def u128CheckedAdd (a b : Nat) : Except VaultError Nat :=
  if a + b < U128 then .ok (a + b) else .error .MathOverflow

/-- Rust u128 checked_div, with None mapped to DivisionByZero as in the source. -/
def u128CheckedDiv (a b : Nat) : Except VaultError Nat :=
  if b = 0 then .error .DivisionByZero else .ok (a / b)

/-- Rust i64 saturating_sub: the difference clamped to the i64 range. -/
def i64SatSub (a b : Int) : Int := max I64_MIN (min I64_MAX (a - b))

/-- Rust cast of an i64 value to u128 (two's complement reinterpretation). -/
def i64AsU128 (x : Int) : Nat := (x % (340282366920938463463374607431768211456 : Int)).toNat

/-- The Vault account (struct Vault in the source).  Pubkeys are Nats. -/
structure Vault where
  authority : Nat
  token_mint : Nat
  total_shares : Nat
  reward_rate : Nat
  acc_reward_per_share : Nat
  last_update_ts : Int
  reward_mint : Nat
  reward_vault : Nat
  flash_fee_bps : Nat
  fee_treasury : Nat
  callback_allowlist_enabled : Bool
  callback_allowlist : List Nat
  deriving Repr, DecidableEq

/-- The UserPosition account (struct UserPosition in the source). -/
structure UserPosition where
  user : Nat
  vault : Nat
  shares : Nat
  reward_debt : Nat
  deriving Repr, DecidableEq

/-- Helper update_rewards of the source: catch the reward accumulator up
to current_ts.  Mirrors lines 588-617 of lib.rs, including the i64
saturating subtraction, the checked u128 operations, and the unchecked
(wrapping) multiplication by REWARD_PRECISION. -/
def update_rewards (v : Vault) (current_ts : Int) : Except VaultError Vault :=
  if i64SatSub current_ts v.last_update_ts = 0 ∨ v.total_shares = 0 then
    .ok { v with last_update_ts := current_ts }
  else
    match u128CheckedMul v.reward_rate (i64AsU128 (i64SatSub current_ts v.last_update_ts)) with
    | .error e => .error e
    | .ok rewards =>
      if 0 < rewards ∧ 0 < v.total_shares then
        match u128CheckedDiv (rewards * REWARD_PRECISION % U128) v.total_shares with
        | .error e => .error e
        | .ok acc_increment =>
          match u128CheckedAdd v.acc_reward_per_share acc_increment with
          | .error e => .error e
          | .ok acc =>
            .ok { v with acc_reward_per_share := acc, last_update_ts := current_ts }
      else
        .ok { v with last_update_ts := current_ts }

/-- Helper calculate_shares_for_deposit of the source (lines 541-562):
the 1:1 branch is guarded by vault_balance == 0, and the u128 quotient is
cast back to u64 (a wrapping cast, modelled as mod 2^64). -/
def calculate_shares_for_deposit (deposit_amount vault_balance total_shares : Nat) :
    Except VaultError Nat :=
  if vault_balance = 0 then
    .ok deposit_amount
  else
    match u128CheckedMul deposit_amount total_shares with
    | .error e => .error e
    | .ok p =>
      match u128CheckedDiv p vault_balance with
      | .error e => .error e
      | .ok s => .ok (s % U64)

/-- Helper calculate_tokens_for_withdraw of the source (lines 565-584):
requires total_shares > 0, computes the u128 quotient, casts it to u64
(wrapping, modelled as mod 2^64) and rejects a zero result. -/
def calculate_tokens_for_withdraw (shares vault_balance total_shares : Nat) :
    Except VaultError Nat :=
  if total_shares = 0 then .error .DivisionByZero
  else
    match u128CheckedMul shares vault_balance with
    | .error e => .error e
    | .ok p =>
      match u128CheckedDiv p total_shares with
      | .error e => .error e
      | .ok t =>
        if t % U64 = 0 then .error .InvalidAmount else .ok (t % U64)

/-- Accounts touched by deposit and withdraw: the vault account, the
caller's position account, and the amounts of the vault's and the user's
token accounts. -/
structure DepositState where
  vault : Vault
  position : UserPosition
  vault_balance : Nat
  user_balance : Nat
  deriving Repr, DecidableEq

/-- Post-state of withdraw; position_closed records whether the position
account's storage was reclaimed (lamports drained) by the instruction. -/
structure WithdrawResult where
  vault : Vault
  position : UserPosition
  vault_balance : Nat
  user_balance : Nat
  position_closed : Bool
  deriving Repr, DecidableEq

/-- Instruction deposit of the source (lines 33-107).  The extra Nat
arguments carry the account metadata the instruction validates: the keys
of the vault and user accounts and the mints of the two token accounts. -/
def deposit (st : DepositState) (vault_key user_key vault_ta_mint user_ta_mint : Nat)
    (amount : Nat) (now : Int) : Except VaultError DepositState :=
  if amount = 0 then .error .InvalidAmount
  else if ¬ st.vault.token_mint = vault_ta_mint then .error .InvalidTokenMint
  else if ¬ st.vault.token_mint = user_ta_mint then .error .InvalidTokenMint
  else
    match update_rewards st.vault now with
    | .error e => .error e
    | .ok vault =>
      match (if st.position.shares = 0 then
               Except.ok { st.position with user := user_key, vault := vault_key,
                                            reward_debt := 0 }
             else if ¬ st.position.user = user_key then .error .InvalidUserPosition
             else if ¬ st.position.vault = vault_key then .error .InvalidVault
             else .ok st.position) with
      | .error e => .error e
      | .ok pos =>
        match calculate_shares_for_deposit amount st.vault_balance vault.total_shares with
        | .error e => .error e
        | .ok shares =>
          if shares = 0 then .error .InvalidAmount
          else if st.user_balance < amount then .error .TokenTransferFailed
          else
            match u64CheckedAdd vault.total_shares shares with
            | .error e => .error e
            | .ok total2 =>
              match u64CheckedAdd pos.shares shares with
              | .error e => .error e
              | .ok pshares =>
                match u128CheckedMul pshares vault.acc_reward_per_share with
                | .error e => .error e
                | .ok debt =>
                  .ok ⟨{ vault with total_shares := total2 },
                       { pos with shares := pshares, reward_debt := debt },
                       st.vault_balance + amount,
                       st.user_balance - amount⟩

/-- Instruction withdraw of the source (lines 109-216).  Pending rewards
are computed with the pre-withdraw share count against the caught-up
accumulator; a withdraw to zero shares with positive pending stores the
scaled pending amount in reward_debt and keeps the position open, with
zero pending it reclaims the position storage. -/
def withdraw (st : DepositState) (vault_key user_key : Nat) (shares : Nat) (now : Int) :
    Except VaultError WithdrawResult :=
  if shares = 0 then .error .InvalidAmount
  else if ¬ st.position.vault = vault_key then .error .InvalidVault
  else if ¬ st.position.user = user_key then .error .InvalidVault
  else if st.position.shares < shares then .error .InsufficientShares
  else
    match update_rewards st.vault now with
    | .error e => .error e
    | .ok vault =>
      match calculate_tokens_for_withdraw shares st.vault_balance vault.total_shares with
      | .error e => .error e
      | .ok tokens =>
        if st.vault_balance < tokens then .error .TokenTransferFailed
        else
          match u64CheckedSub vault.total_shares shares with
          | .error e => .error e
          | .ok total2 =>
            match u128CheckedMul st.position.shares vault.acc_reward_per_share with
            | .error e => .error e
            | .ok owed =>
              match u64CheckedSub st.position.shares shares with
              | .error e => .error e
              | .ok new_shares =>
                if 0 < new_shares then
                  match u128CheckedMul new_shares vault.acc_reward_per_share with
                  | .error e => .error e
                  | .ok debt =>
                    .ok ⟨{ vault with total_shares := total2 },
                         { st.position with shares := new_shares, reward_debt := debt },
                         st.vault_balance - tokens, st.user_balance + tokens, false⟩
                else if 0 < owed - st.position.reward_debt then
                  .ok ⟨{ vault with total_shares := total2 },
                       { st.position with shares := new_shares,
                                          reward_debt := owed - st.position.reward_debt },
                       st.vault_balance - tokens, st.user_balance + tokens, false⟩
                else
                  .ok ⟨{ vault with total_shares := total2 },
                       { st.position with shares := new_shares, reward_debt := 0 },
                       st.vault_balance - tokens, st.user_balance + tokens, true⟩

/-- Accounts touched by claim_rewards. -/
structure ClaimState where
  vault : Vault
  position : UserPosition
  reward_vault_balance : Nat
  user_reward_balance : Nat
  deriving Repr, DecidableEq

/-- Post-state of claim_rewards, with the asset amount paid out and
whether the position account's storage was reclaimed. -/
structure ClaimResult where
  state : ClaimState
  paid : Nat
  position_closed : Bool
  deriving Repr, DecidableEq

/-- Instruction claim_rewards of the source (lines 258-359).  With zero
shares, reward_debt is read as the scaled pending sentinel; the scaled
pending is floored by REWARD_PRECISION, and only a positive asset amount
triggers the transfer, the reward_debt reset and the position close. -/
def claim_rewards (st : ClaimState)
    (vault_key user_key reward_vault_key reward_vault_mint user_reward_mint : Nat)
    (now : Int) : Except VaultError ClaimResult :=
  if ¬ st.vault.reward_vault = reward_vault_key then .error .RewardVaultMismatch
  else if ¬ st.vault.reward_mint = reward_vault_mint then .error .InvalidRewardMint
  else if ¬ st.vault.reward_mint = user_reward_mint then .error .InvalidRewardMint
  else if ¬ st.position.vault = vault_key then .error .InvalidVault
  else if ¬ st.position.user = user_key then .error .InvalidVault
  else
    match update_rewards st.vault now with
    | .error e => .error e
    | .ok vault =>
      match (if st.position.shares = 0 then Except.ok st.position.reward_debt
             else
               match u128CheckedMul st.position.shares vault.acc_reward_per_share with
               | .error e => .error e
               | .ok owed => .ok (owed - st.position.reward_debt)) with
      | .error e => .error e
      | .ok pending_scaled =>
        match u128CheckedDiv pending_scaled REWARD_PRECISION with
        | .error e => .error e
        | .ok pending =>
          if 0 < pending then
            if st.reward_vault_balance < min pending (U64 - 1) then
              .error .InsufficientRewardBalance
            else if 0 < st.position.shares then
              match u128CheckedMul st.position.shares vault.acc_reward_per_share with
              | .error e => .error e
              | .ok debt =>
                .ok ⟨⟨vault, { st.position with reward_debt := debt },
                      st.reward_vault_balance - min pending (U64 - 1),
                      st.user_reward_balance + min pending (U64 - 1)⟩,
                     min pending (U64 - 1), false⟩
            else
              .ok ⟨⟨vault, { st.position with reward_debt := 0 },
                    st.reward_vault_balance - min pending (U64 - 1),
                    st.user_reward_balance + min pending (U64 - 1)⟩,
                   min pending (U64 - 1), true⟩
          else
            .ok ⟨⟨vault, st.position, st.reward_vault_balance, st.user_reward_balance⟩,
                 0, false⟩

/-- Instruction fund_rewards of the source (lines 218-256): transfers the
amount into the reward custody account and overwrites reward_rate only
when the supplied rate is positive; no accumulator catch-up.  Returns
the new vault together with the new reward-vault and funder balances. -/
def fund_rewards (vault : Vault) (reward_vault_key reward_vault_mint funder_mint : Nat)
    (reward_vault_balance funder_balance : Nat) (amount reward_rate : Nat) :
    Except VaultError (Vault × Nat × Nat) :=
  if amount = 0 then .error .InvalidAmount
  else if ¬ vault.reward_vault = reward_vault_key then .error .RewardVaultMismatch
  else if ¬ vault.reward_mint = reward_vault_mint then .error .InvalidRewardMint
  else if ¬ vault.reward_mint = funder_mint then .error .InvalidRewardMint
  else if funder_balance < amount then .error .TokenTransferFailed
  else
    .ok (if 0 < reward_rate then { vault with reward_rate := reward_rate } else vault,
         reward_vault_balance + amount, funder_balance - amount)

/-- Optional overwrite of the fee treasury (the second if let of
update_flash_loan_config). -/
def applyTreasury (v : Vault) : Option Nat → Vault
  | some t => { v with fee_treasury := t }
  | none => v

/-- Optional overwrite of the allowlist toggle (the third if let of
update_flash_loan_config). -/
def applyEnabled (v : Vault) : Option Bool → Vault
  | some e => { v with callback_allowlist_enabled := e }
  | none => v

/-- Instruction update_flash_loan_config of the source (lines 361-398):
admin-only; each field is updated independently when supplied; a fee
above 10000 bps and an allowlist longer than 10 entries are rejected. -/
def update_flash_loan_config (vault : Vault) (authority_key : Nat)
    (flash_fee_bps : Option Nat) (fee_treasury : Option Nat)
    (callback_allowlist_enabled : Option Bool) (callback_allowlist : Option (List Nat)) :
    Except VaultError Vault :=
  if ¬ vault.authority = authority_key then .error .InvalidVault
  else
    match (match flash_fee_bps with
           | some f => if 10000 < f then Except.error VaultError.InvalidAmount
                       else .ok { vault with flash_fee_bps := f }
           | none => .ok vault) with
    | .error e => .error e
    | .ok v1 =>
      match callback_allowlist with
      | some l =>
        if 10 < l.length then .error .MathOverflow
        else .ok { applyEnabled (applyTreasury v1 fee_treasury) callback_allowlist_enabled
                     with callback_allowlist := l }
      | none => .ok (applyEnabled (applyTreasury v1 fee_treasury) callback_allowlist_enabled)

/-- Token balances touched by flash_loan: the vault custody account, the
borrower's token account and the fee-treasury token account. -/
structure FlashState where
  vault_balance : Nat
  borrower_balance : Nat
  treasury_balance : Nat
  deriving Repr, DecidableEq

/-- Balance-level body of the flash_loan instruction of the source
(lines 400-537).  The callback is an opaque external invocation: it is
modelled as an arbitrary function from the post-disbursement balances to
either failure (none) or new balances, after which the vault custody
balance is re-read. -/
def flash_loan_core (vault : Vault) (st : FlashState)
    (borrower_key borrower_ta_mint borrower_ta_owner fee_ta_mint fee_ta_owner
     callback_key : Nat) (amount : Nat)
    (callback : FlashState → Option FlashState) :
    Except VaultError (FlashState × Nat) :=
  if amount = 0 then .error .InvalidFlashLoanAmount
  else if vault.fee_treasury = 0 then .error .FlashLoanNotConfigured
  else if ¬ borrower_ta_mint = vault.token_mint then .error .InvalidTokenMint
  else if ¬ borrower_ta_owner = borrower_key then .error .InvalidTokenMint
  else if ¬ fee_ta_mint = vault.token_mint then .error .InvalidFeeTreasury
  else if ¬ fee_ta_owner = vault.fee_treasury then .error .InvalidFeeTreasury
  else if vault.callback_allowlist_enabled ∧
          ¬ vault.callback_allowlist.contains callback_key then
    .error .CallbackNotAllowlisted
  else if st.vault_balance < amount then .error .InsufficientVaultBalance
  else
    match u128CheckedMul amount vault.flash_fee_bps with
    | .error e => .error e
    | .ok p =>
      match callback ⟨st.vault_balance - amount, st.borrower_balance + amount,
                      st.treasury_balance⟩ with
      | none => .error .CallbackFailed
      | some after =>
        match u64CheckedAdd st.vault_balance (p / 10000 % U64) with
        | .error e => .error e
        | .ok required =>
          if after.vault_balance < required then .error .InsufficientRepayment
          else if 0 < p / 10000 % U64 then
            if after.vault_balance < p / 10000 % U64 then .error .TokenTransferFailed
            else .ok (⟨after.vault_balance - p / 10000 % U64, after.borrower_balance,
                       after.treasury_balance + p / 10000 % U64⟩, p / 10000 % U64)
          else .ok (after, p / 10000 % U64)

/-- Instruction flash_loan of the source (lines 400-537).  The vault
account itself is only read by this instruction (the source takes it by
shared reference), so its unchanged value is returned alongside the new
balances and the fee. -/
def flash_loan (vault : Vault) (st : FlashState)
    (borrower_key borrower_ta_mint borrower_ta_owner fee_ta_mint fee_ta_owner
     callback_key : Nat) (amount : Nat)
    (callback : FlashState → Option FlashState) :
    Except VaultError (Vault × FlashState × Nat) :=
  match flash_loan_core vault st borrower_key borrower_ta_mint borrower_ta_owner
      fee_ta_mint fee_ta_owner callback_key amount callback with
  | .error e => .error e
  | .ok o => .ok (vault, o.1, o.2)

/-- A callback that repays r units from the borrower account back into
the vault custody account, and fails when the borrower cannot cover r.
Used to express the repayment scenarios of the specification. -/
def repayCallback (r : Nat) : FlashState → Option FlashState :=
  fun s =>
    if r ≤ s.borrower_balance then
      some ⟨s.vault_balance + r, s.borrower_balance - r, s.treasury_balance⟩
    else none

/-- Vault account resulting from an operation: the new vault on success,
the unchanged pre-state vault on error (the host reverts the whole
operation on error). -/
def vaultAfter {α : Type} (proj : α → Vault) (v : Vault) : Except VaultError α → Vault
  | .ok a => proj a
  | .error _ => v

/-- Flash-loan balances resulting from the operation: the new balances on
success, the unchanged pre-state balances on error. -/
def flashStateAfter (st : FlashState) : Except VaultError (Vault × FlashState × Nat) →
    FlashState
  | .ok o => o.2.1
  | .error _ => st

theorem i64SatSub_self (t : Int) : i64SatSub t t = 0 := by
  unfold i64SatSub
  rw [sub_self]
  decide

/-- On success, update_rewards advances last_update_ts to the given time,
never decreases the accumulator, and leaves every other field unchanged. -/
theorem update_rewards_ok {v : Vault} {t : Int} {v' : Vault}
    (h : update_rewards v t = .ok v') :
    v'.last_update_ts = t ∧ v.acc_reward_per_share ≤ v'.acc_reward_per_share ∧
    v'.total_shares = v.total_shares ∧ v'.reward_rate = v.reward_rate ∧
    v'.authority = v.authority ∧ v'.token_mint = v.token_mint ∧
    v'.reward_mint = v.reward_mint ∧ v'.reward_vault = v.reward_vault ∧
    v'.flash_fee_bps = v.flash_fee_bps ∧ v'.fee_treasury = v.fee_treasury ∧
    v'.callback_allowlist_enabled = v.callback_allowlist_enabled ∧
    v'.callback_allowlist = v.callback_allowlist := by
  unfold update_rewards at h
  split at h
  · injection h with h'
    subst h'
    simp
  · split at h
    · exact absurd h (by simp)
    · split at h
      · split at h
        · exact absurd h (by simp)
        · rename_i heqd
          split at h
          · exact absurd h (by simp)
          · rename_i acc heqa
            injection h with h'
            subst h'
            unfold u128CheckedAdd at heqa
            split at heqa
            · injection heqa with h2
              subst h2
              simp
            · exact absurd heqa (by simp)
      · injection h with h'
        subst h'
        simp

/-- Replacing last_update_ts by its own value is the identity. -/
theorem vault_set_last_self {v : Vault} {t : Int} (h : v.last_update_ts = t) :
    { v with last_update_ts := t } = v := by
  cases v
  simp_all

/-- A second catch-up at the same timestamp leaves a caught-up vault
unchanged. -/
theorem update_rewards_idem_aux {v v' : Vault} {t : Int}
    (h : update_rewards v t = .ok v') : update_rewards v' t = .ok v' := by
  have hl := (update_rewards_ok h).1
  unfold update_rewards
  rw [hl, i64SatSub_self]
  simp [vault_set_last_self hl]

/-- C5: the reward catch-up is idempotent at a fixed timestamp: running
it twice at time t equals running it once; and whenever the elapsed time
is zero (the timestamp equals last_update_ts) or total_shares is zero,
the only field changed is last_update_time. -/
theorem update_rewards_idempotent_spec (v : Vault) (t : Int) :
    ((update_rewards v t).bind (fun v2 => update_rewards v2 t) = update_rewards v t)
    ∧ ((t = v.last_update_ts ∨ v.total_shares = 0) →
        update_rewards v t = .ok { v with last_update_ts := t }) := by
  constructor
  · cases h : update_rewards v t with
    | error e => rfl
    | ok v' =>
      show update_rewards v' t = Except.ok v'
      exact update_rewards_idem_aux h
  · intro hcond
    unfold update_rewards
    have : i64SatSub t v.last_update_ts = 0 ∨ v.total_shares = 0 := by
      rcases hcond with h1 | h2
      · exact Or.inl (by rw [h1]; exact i64SatSub_self _)
      · exact Or.inr h2
    simp [this]

theorem U64_mul_U64 : U64 * U64 = U128 := by decide

/-- Counterexample to C2: with total_shares = 0 but a positive reserve
balance, the deposit share calculation returns 0 shares, not the claimed
1:1 amount: at amount 5, reserve 3, total_shares 0 the code yields 0. -/
theorem shares_for_deposit_zero_total_counterexample :
    calculate_shares_for_deposit 5 3 0 = .ok 0 ∧
    calculate_shares_for_deposit 5 3 0 ≠ .ok 5 := by decide

/-- C2 (amended): the 1:1 branch of the deposit share calculation is
taken when the reserve balance is zero (not when total_shares is zero);
otherwise, whenever the double-width quotient fits in 64 bits, the
result is floor(amount * total_shares / reserve_before); and deposit
rejects a computed share amount of zero as an error. -/
theorem shares_for_deposit_amended (amount balance total : Nat)
    (ha : amount < U64) (ht : total < U64) :
    (balance = 0 → calculate_shares_for_deposit amount balance total = .ok amount)
    ∧ (0 < balance → amount * total / balance < U64 →
        calculate_shares_for_deposit amount balance total = .ok (amount * total / balance))
    ∧ (∀ (st : DepositState) (vk uk vtm utm a : Nat) (now : Int) (s' : DepositState),
        calculate_shares_for_deposit a st.vault_balance st.vault.total_shares = .ok 0 →
        deposit st vk uk vtm utm a now ≠ .ok s') := by
  refine ⟨?_, ?_, ?_⟩
  · intro hb
    unfold calculate_shares_for_deposit
    simp [hb]
  · intro hb hfit
    have hmul : amount * total < U128 := by
      calc amount * total < U64 * U64 := by
            exact mul_lt_mul'' ha ht (Nat.zero_le _) (Nat.zero_le _)
        _ = U128 := U64_mul_U64
    unfold calculate_shares_for_deposit u128CheckedMul u128CheckedDiv
    rw [if_neg (Nat.pos_iff_ne_zero.mp hb), if_pos hmul]
    simp [Nat.pos_iff_ne_zero.mp hb, Nat.mod_eq_of_lt hfit]
  · intro st vk uk vtm utm a now s' h0 hdep
    unfold deposit at hdep
    split at hdep
    · exact absurd hdep (by simp)
    split at hdep
    · exact absurd hdep (by simp)
    split at hdep
    · exact absurd hdep (by simp)
    split at hdep
    · exact absurd hdep (by simp)
    rename_i vault hvu
    have htot := (update_rewards_ok hvu).2.2.1
    split at hdep
    · exact absurd hdep (by simp)
    split at hdep
    · rename_i e hsh
      rw [htot, h0] at hsh
      exact absurd hsh (by simp)
    · rename_i shares hsh
      rw [htot, h0] at hsh
      injection hsh with hsh'
      split at hdep
      · exact absurd hdep (by simp)
      · rename_i hne
        exact hne hsh'.symm

/-- Counterexample to C7: the u128 quotient is cast to u64, so for
shares 2^63 + 1, reserve 2, total_shares 1 the true floor is 2^64 + 2
but the function returns 2. -/
theorem tokens_for_withdraw_truncation_counterexample :
    calculate_tokens_for_withdraw 9223372036854775809 2 1 = .ok 2 ∧
    9223372036854775809 * 2 / 1 ≠ 2 := by decide

/-- C7 (amended): tokens_for_withdraw fails with DivisionByZero when
total_shares = 0; otherwise, whenever the double-width quotient fits in
64 bits, it fails when that floor is zero and returns the floor
otherwise. -/
theorem tokens_for_withdraw_amended (shares balance total : Nat)
    (hs : shares < U64) (hb : balance < U64) :
    (total = 0 → calculate_tokens_for_withdraw shares balance total = .error .DivisionByZero)
    ∧ (0 < total → shares * balance / total < U64 →
        calculate_tokens_for_withdraw shares balance total =
          if shares * balance / total = 0 then .error .InvalidAmount
          else .ok (shares * balance / total)) := by
  constructor
  · intro h0
    unfold calculate_tokens_for_withdraw
    simp [h0]
  · intro hpos hfit
    have hmul : shares * balance < U128 := by
      calc shares * balance < U64 * U64 := by
            exact mul_lt_mul'' hs hb (Nat.zero_le _) (Nat.zero_le _)
        _ = U128 := U64_mul_U64
    unfold calculate_tokens_for_withdraw u128CheckedMul u128CheckedDiv
    rw [if_neg (Nat.pos_iff_ne_zero.mp hpos), if_pos hmul]
    simp [Nat.pos_iff_ne_zero.mp hpos, Nat.mod_eq_of_lt hfit]

/-- C4: depositing amount into a vault with the given reserve balance and
total shares, then immediately withdrawing all of the shares that the
deposit granted (against the post-deposit reserve balance + amount and
total shares total + s), returns at most amount: rounding down on both
legs never pays out more than was deposited. -/
theorem deposit_withdraw_round_trip_le (amount balance total s tokens : Nat)
    (hs : calculate_shares_for_deposit amount balance total = .ok s)
    (ht : calculate_tokens_for_withdraw s (balance + amount) (total + s) = .ok tokens) :
    tokens ≤ amount := by
  have hkey : s * (balance + amount) ≤ amount * (total + s) := by
    unfold calculate_shares_for_deposit at hs
    split at hs
    · rename_i hb0
      injection hs with h'
      subst h'
      subst hb0
      have hle : 0 + amount ≤ total + amount := by omega
      exact Nat.mul_le_mul_left amount hle
    · rename_i hb0
      split at hs
      · exact absurd hs (by simp)
      · rename_i p hp
        split at hs
        · exact absurd hs (by simp)
        · rename_i q hq
          injection hs with h'
          unfold u128CheckedMul at hp
          split at hp
          · injection hp with hp'
            subst hp'
            unfold u128CheckedDiv at hq
            split at hq
            · exact absurd hq (by simp)
            · injection hq with hq'
              subst hq'
              have hsle : s ≤ amount * total / balance := by
                rw [← h']
                exact Nat.mod_le _ _
              have hsb : s * balance ≤ amount * total := by
                have hbpos : 0 < balance := Nat.pos_of_ne_zero hb0
                exact (Nat.le_div_iff_mul_le hbpos).mp hsle
              nlinarith [hsb]
          · exact absurd hp (by simp)
  unfold calculate_tokens_for_withdraw at ht
  split at ht
  · exact absurd ht (by simp)
  · rename_i hts0
    split at ht
    · exact absurd ht (by simp)
    · rename_i p2 hp2
      split at ht
      · exact absurd ht (by simp)
      · rename_i q2 hq2
        split at ht
        · exact absurd ht (by simp)
        · injection ht with h2
          unfold u128CheckedMul at hp2
          split at hp2
          · injection hp2 with hp2'
            subst hp2'
            unfold u128CheckedDiv at hq2
            split at hq2
            · exact absurd hq2 (by simp)
            · injection hq2 with hq2'
              subst hq2'
              have htspos : 0 < total + s := Nat.pos_of_ne_zero hts0
              calc tokens = s * (balance + amount) / (total + s) % U64 := h2.symm
                _ ≤ s * (balance + amount) / (total + s) := Nat.mod_le _ _
                _ ≤ amount * (total + s) / (total + s) := Nat.div_le_div_right hkey
                _ = amount := Nat.mul_div_cancel amount htspos
          · exact absurd hp2 (by simp)

/-- Concrete vault used by witnesses: one share outstanding, accumulator
at 1, reward rate 2, last update at time 5. -/
def vW5 : Vault := ⟨0, 5, 3, 2, 7, 5, 6, 3, 0, 0, false, []⟩

/-- Witness for C5 at a concrete vault and timestamp equal to its
last_update_ts. -/
theorem update_rewards_idempotent_spec_witness :
    ((update_rewards vW5 5).bind (fun v2 => update_rewards v2 5) = update_rewards vW5 5)
    ∧ update_rewards vW5 5 = .ok { vW5 with last_update_ts := 5 } := by
  have h := update_rewards_idempotent_spec vW5 5
  exact ⟨h.1, h.2 (Or.inl rfl)⟩

/-- Concrete fresh vault used by the C2 witness. -/
def vW2 : Vault := ⟨0, 5, 0, 0, 0, 0, 6, 3, 0, 0, false, []⟩

/-- Concrete deposit pre-state with positive reserve and zero
total_shares, on which the share calculation yields zero. -/
def stW2 : DepositState := ⟨vW2, ⟨2, 1, 0, 0⟩, 3, 10⟩

/-- Witness for C2 (amended) at concrete inputs: the zero-reserve 1:1
branch, the floor branch, and deposit rejecting a zero share result. -/
theorem shares_for_deposit_amended_witness :
    calculate_shares_for_deposit 8 0 6 = .ok 8 ∧
    calculate_shares_for_deposit 8 4 6 = .ok (8 * 6 / 4) ∧
    deposit stW2 1 2 5 5 5 0 ≠ .ok stW2 := by
  have h0 := shares_for_deposit_amended 8 0 6 (by decide) (by decide)
  have h := shares_for_deposit_amended 8 4 6 (by decide) (by decide)
  exact ⟨h0.1 rfl, h.2.1 (by decide) (by decide),
         h.2.2 stW2 1 2 5 5 5 0 stW2 (by decide)⟩

/-- Witness for C7 (amended) at concrete inputs: the zero-total error
and the floor branch. -/
theorem tokens_for_withdraw_amended_witness :
    calculate_tokens_for_withdraw 6 4 0 = .error .DivisionByZero ∧
    calculate_tokens_for_withdraw 6 4 3 =
      (if 6 * 4 / 3 = 0 then .error .InvalidAmount else .ok (6 * 4 / 3)) := by
  have h0 := tokens_for_withdraw_amended 6 4 0 (by decide) (by decide)
  have h := tokens_for_withdraw_amended 6 4 3 (by decide) (by decide)
  exact ⟨h0.1 rfl, h.2 (by decide) (by decide)⟩

/-- Witness for C4 at concrete inputs: depositing 100 against reserve 50
and 7 shares grants 14 shares, and withdrawing those 14 immediately pays
back exactly 100, within the claimed bound. -/
theorem deposit_withdraw_round_trip_le_witness :
    calculate_shares_for_deposit 100 50 7 = .ok 14 ∧
    calculate_tokens_for_withdraw 14 (50 + 100) (7 + 14) = .ok 100 ∧
    (100 : Nat) ≤ 100 := by
  refine ⟨by decide, by decide, ?_⟩
  exact deposit_withdraw_round_trip_le 100 50 7 14 100 (by decide) (by decide)

/-- Evaluation of claim_rewards on a position holding zero shares: the
stored reward_debt acts as the scaled pending sentinel; if it floors to a
positive asset amount the claim pays it out, clears the sentinel and
reclaims the position, otherwise the call is a successful no-op on the
position and the balances. -/
theorem claim_rewards_zero_shares_eval (st : ClaimState)
    (vk uk rvk rvm um : Nat) (now : Int) (v2 : Vault)
    (hrv : st.vault.reward_vault = rvk) (hm1 : st.vault.reward_mint = rvm)
    (hm2 : st.vault.reward_mint = um) (hpv : st.position.vault = vk)
    (hpu : st.position.user = uk) (hz : st.position.shares = 0)
    (hu : update_rewards st.vault now = .ok v2) :
    claim_rewards st vk uk rvk rvm um now =
      if 0 < st.position.reward_debt / REWARD_PRECISION then
        if st.reward_vault_balance
            < min (st.position.reward_debt / REWARD_PRECISION) (U64 - 1) then
          .error .InsufficientRewardBalance
        else
          .ok ⟨⟨v2, { st.position with reward_debt := 0 },
                st.reward_vault_balance
                  - min (st.position.reward_debt / REWARD_PRECISION) (U64 - 1),
                st.user_reward_balance
                  + min (st.position.reward_debt / REWARD_PRECISION) (U64 - 1)⟩,
               min (st.position.reward_debt / REWARD_PRECISION) (U64 - 1), true⟩
      else
        .ok ⟨⟨v2, st.position, st.reward_vault_balance, st.user_reward_balance⟩,
             0, false⟩ := by
  unfold claim_rewards
  have hum : rvm = um := hm1.symm.trans hm2
  simp [hrv, hm1, hum, hpv, hpu, hz, hu, u128CheckedDiv, REWARD_PRECISION]

/-- Evaluation of a successful withdraw that brings the position's shares
to zero: with positive pending (computed from the pre-withdraw shares
against the caught-up accumulator), the scaled pending is stored in
reward_debt and the position stays open; with zero pending the
reward_debt is zeroed and the position's storage is reclaimed. -/
theorem withdraw_ok_to_zero {st : DepositState} {vk uk sh : Nat} {now : Int}
    {wr : WithdrawResult} {v2 : Vault}
    (hu : update_rewards st.vault now = .ok v2)
    (hw : withdraw st vk uk sh now = .ok wr)
    (hz : wr.position.shares = 0) :
    (0 < st.position.shares * v2.acc_reward_per_share - st.position.reward_debt →
        wr.position.reward_debt
          = st.position.shares * v2.acc_reward_per_share - st.position.reward_debt
        ∧ wr.position_closed = false)
    ∧ (st.position.shares * v2.acc_reward_per_share - st.position.reward_debt = 0 →
        wr.position.reward_debt = 0 ∧ wr.position_closed = true) := by
  unfold withdraw at hw
  split at hw
  · exact absurd hw (by simp)
  split at hw
  · exact absurd hw (by simp)
  split at hw
  · exact absurd hw (by simp)
  split at hw
  · exact absurd hw (by simp)
  split at hw
  · rename_i e heq
    rw [hu] at heq
    exact absurd heq (by simp)
  · rename_i vault heq
    rw [hu] at heq
    injection heq with heq'
    subst heq'
    split at hw
    · exact absurd hw (by simp)
    · rename_i tokens htok
      split at hw
      · exact absurd hw (by simp)
      split at hw
      · exact absurd hw (by simp)
      · rename_i total2 htot2
        split at hw
        · exact absurd hw (by simp)
        · rename_i owed howed
          unfold u128CheckedMul at howed
          split at howed
          · injection howed with howed'
            subst howed'
            split at hw
            · exact absurd hw (by simp)
            · rename_i new_shares hns
              split at hw
              · rename_i hpos
                split at hw
                · exact absurd hw (by simp)
                · injection hw with hw'
                  subst hw'
                  simp at hz
                  omega
              · rename_i hnpos
                split at hw
                · rename_i hpend
                  injection hw with hw'
                  subst hw'
                  constructor
                  · intro _
                    exact ⟨rfl, rfl⟩
                  · intro h0
                    rw [h0] at hpend
                    exact absurd hpend (by omega)
                · rename_i hnpend
                  injection hw with hw'
                  subst hw'
                  constructor
                  · intro hp
                    exact absurd hp (by omega)
                  · intro _
                    exact ⟨rfl, rfl⟩
          · exact absurd howed (by simp)

/-- C10: when claim_rewards runs on a position with zero shares whose
reward_debt sentinel is positive but below the fixed-point scale (1e12),
the floor division yields zero asset units, so the call succeeds while
transferring nothing, leaving reward_debt uncleared, the balances
untouched and the position open. -/
theorem claim_rewards_subscale_sentinel_noop (st : ClaimState)
    (vk uk rvk rvm um : Nat) (now : Int) (v2 : Vault)
    (hrv : st.vault.reward_vault = rvk) (hm1 : st.vault.reward_mint = rvm)
    (hm2 : st.vault.reward_mint = um) (hpv : st.position.vault = vk)
    (hpu : st.position.user = uk) (hz : st.position.shares = 0)
    (hdpos : 0 < st.position.reward_debt)
    (hdlt : st.position.reward_debt < REWARD_PRECISION)
    (hu : update_rewards st.vault now = .ok v2) :
    claim_rewards st vk uk rvk rvm um now =
      .ok ⟨⟨v2, st.position, st.reward_vault_balance, st.user_reward_balance⟩,
           0, false⟩ := by
  rw [claim_rewards_zero_shares_eval st vk uk rvk rvm um now v2 hrv hm1 hm2 hpv hpu hz hu]
  rw [Nat.div_eq_of_lt hdlt]
  simp

/-- Vault used in the claim-rewards witnesses: zero shares outstanding,
reward vault key 3, both mints distinct from the asset mint. -/
def vX3 : Vault := ⟨0, 5, 1, 0, 1, 0, 6, 3, 0, 0, false, []⟩

/-- Claim pre-state with a sub-scale sentinel of 55 stored in reward_debt. -/
def csW10 : ClaimState := ⟨{ vX3 with total_shares := 0 }, ⟨2, 1, 0, 55⟩, 100, 0⟩

/-- Witness for C10 at a concrete state: claiming with sentinel 55 pays
nothing, clears nothing, and leaves the position open. -/
theorem claim_rewards_subscale_sentinel_noop_witness :
    claim_rewards csW10 1 2 3 6 6 0 =
      .ok ⟨⟨{ vX3 with total_shares := 0 }, ⟨2, 1, 0, 55⟩, 100, 0⟩, 0, false⟩ :=
  claim_rewards_subscale_sentinel_noop csW10 1 2 3 6 6 0
    ({ vX3 with total_shares := 0 }) rfl rfl rfl rfl rfl rfl (by decide) (by decide)
    (by decide)

/-- Pre-withdraw state for the C3 counterexample: one depositor holding
the single outstanding share, accumulator at 1 (scaled), reserve 10. -/
def stX3 : DepositState := ⟨vX3, ⟨2, 1, 1, 0⟩, 10, 0⟩

/-- Result of withdrawing the single share from stX3: the position stays
open with the scaled pending amount 1 stored in reward_debt. -/
def wrX3 : WithdrawResult :=
  ⟨{ vX3 with total_shares := 0 }, ⟨2, 1, 0, 1⟩, 0, 10, false⟩

/-- Post-withdraw claim state of the C3 counterexample. -/
def csX3 : ClaimState := ⟨{ vX3 with total_shares := 0 }, ⟨2, 1, 0, 1⟩, 100, 0⟩

/-- Counterexample to C3: a withdraw to zero shares leaves the position
open with the scaled pending sentinel 1; the subsequent claim_rewards on
that open position succeeds but pays 0 and does not reclaim the
position's storage, contradicting that it pays the pending amount and
then reclaims the position. -/
theorem withdraw_to_zero_claim_counterexample :
    withdraw stX3 1 2 1 0 = .ok wrX3 ∧
    wrX3.position.shares = 0 ∧ wrX3.position.reward_debt = 1 ∧
    wrX3.position_closed = false ∧
    claim_rewards csX3 1 2 3 6 6 0 = .ok ⟨csX3, 0, false⟩ := by decide

/-- C3 (amended): a withdraw that brings the shares to zero stores the
scaled pending amount in reward_debt and keeps the position open when
pending is positive, and reclaims the position at once when pending is
zero; a subsequent claim_rewards on the open zero-share position pays
floor(sentinel / 1e12) asset units: when the sentinel is at least the
scale (and the reward vault covers the payout) it pays that amount,
clears the sentinel and reclaims the position, and when the sentinel is
below the scale it pays nothing and leaves the position open. -/
theorem withdraw_to_zero_then_claim_amended
    (st : DepositState) (vk uk sh : Nat) (now : Int)
    (wr : WithdrawResult) (v2 : Vault)
    (hu : update_rewards st.vault now = .ok v2)
    (hw : withdraw st vk uk sh now = .ok wr)
    (hz : wr.position.shares = 0) :
    ((0 < st.position.shares * v2.acc_reward_per_share - st.position.reward_debt →
        wr.position.reward_debt
          = st.position.shares * v2.acc_reward_per_share - st.position.reward_debt
        ∧ wr.position_closed = false)
      ∧ (st.position.shares * v2.acc_reward_per_share - st.position.reward_debt = 0 →
        wr.position.reward_debt = 0 ∧ wr.position_closed = true))
    ∧ (∀ (cs : ClaimState) (vk2 uk2 rvk rvm um : Nat) (now2 : Int) (v3 : Vault),
        cs.vault.reward_vault = rvk → cs.vault.reward_mint = rvm →
        cs.vault.reward_mint = um → cs.position.vault = vk2 →
        cs.position.user = uk2 → cs.position.shares = 0 →
        update_rewards cs.vault now2 = .ok v3 →
        (REWARD_PRECISION ≤ cs.position.reward_debt →
          min (cs.position.reward_debt / REWARD_PRECISION) (U64 - 1)
              ≤ cs.reward_vault_balance →
          claim_rewards cs vk2 uk2 rvk rvm um now2 =
            .ok ⟨⟨v3, { cs.position with reward_debt := 0 },
                  cs.reward_vault_balance
                    - min (cs.position.reward_debt / REWARD_PRECISION) (U64 - 1),
                  cs.user_reward_balance
                    + min (cs.position.reward_debt / REWARD_PRECISION) (U64 - 1)⟩,
                 min (cs.position.reward_debt / REWARD_PRECISION) (U64 - 1), true⟩)
        ∧ (cs.position.reward_debt < REWARD_PRECISION →
            claim_rewards cs vk2 uk2 rvk rvm um now2 =
              .ok ⟨⟨v3, cs.position, cs.reward_vault_balance,
                    cs.user_reward_balance⟩, 0, false⟩)) := by
  constructor
  · exact withdraw_ok_to_zero hu hw hz
  · intro cs vk2 uk2 rvk rvm um now2 v3 hrv hm1 hm2 hpv hpu hz2 hu2
    rw [claim_rewards_zero_shares_eval cs vk2 uk2 rvk rvm um now2 v3 hrv hm1 hm2 hpv
          hpu hz2 hu2]
    constructor
    · intro hge hbal
      have hpos : 0 < cs.position.reward_debt / REWARD_PRECISION :=
        Nat.div_pos hge (by decide)
      rw [if_pos hpos, if_neg (Nat.not_lt.mpr hbal)]
    · intro hlt
      rw [Nat.div_eq_of_lt hlt]
      simp

/-- Claim pre-state with a sentinel of two scale units plus five, used by
the C3 witness. -/
def csW3 : ClaimState := ⟨{ vX3 with total_shares := 0 }, ⟨2, 1, 0, 2000000000005⟩, 100, 0⟩

/-- Witness for C3 (amended): at the concrete withdraw of stX3 the
pending sentinel is stored and the position stays open, and a concrete
claim on a sentinel of two scale units pays 2 and reclaims the position. -/
theorem withdraw_to_zero_then_claim_amended_witness :
    (wrX3.position.reward_debt
        = stX3.position.shares * vX3.acc_reward_per_share - stX3.position.reward_debt
      ∧ wrX3.position_closed = false)
    ∧ claim_rewards csW3 1 2 3 6 6 0 =
        .ok ⟨⟨{ vX3 with total_shares := 0 }, ⟨2, 1, 0, 0⟩, 98, 2⟩, 2, true⟩ := by
  have h := withdraw_to_zero_then_claim_amended stX3 1 2 1 0 wrX3 vX3
    (by decide) (by decide) (by decide)
  have h2 := (h.2 csW3 1 2 3 6 6 0 ({ vX3 with total_shares := 0 })
    rfl rfl rfl rfl rfl rfl (by decide)).1 (by decide) (by decide)
  exact ⟨h.1.1 (by decide), by simpa using h2⟩

/-- Evaluation of a successful fund_rewards: the rate is overwritten only
when positive, and the amount moves from the funder to the reward vault. -/
theorem fund_rewards_ok_eq {v : Vault} {rvk rvm fm rvb fb amount rate : Nat}
    {v' : Vault} {rvb' fb' : Nat}
    (h : fund_rewards v rvk rvm fm rvb fb amount rate = .ok (v', rvb', fb')) :
    v' = (if 0 < rate then { v with reward_rate := rate } else v)
    ∧ rvb' = rvb + amount ∧ fb' = fb - amount := by
  unfold fund_rewards at h
  split at h
  · exact absurd h (by simp)
  split at h
  · exact absurd h (by simp)
  split at h
  · exact absurd h (by simp)
  split at h
  · exact absurd h (by simp)
  split at h
  · exact absurd h (by simp)
  · injection h with h'
    rw [Prod.mk.injEq, Prod.mk.injEq] at h'
    exact ⟨h'.1.symm, h'.2.1.symm, h'.2.2.symm⟩

/-- C8: fund_rewards overwrites reward_rate only when the supplied rate
is positive (with rate zero the prior value is kept), and leaves every
other vault field unchanged; in particular acc_reward_per_share and
last_update_ts are untouched, so fund_rewards performs no accumulator
catch-up. -/
theorem fund_rewards_frame (v : Vault) (rvk rvm fm rvb fb amount rate : Nat)
    (v' : Vault) (rvb' fb' : Nat)
    (h : fund_rewards v rvk rvm fm rvb fb amount rate = .ok (v', rvb', fb')) :
    v'.reward_rate = (if 0 < rate then rate else v.reward_rate)
    ∧ v'.acc_reward_per_share = v.acc_reward_per_share
    ∧ v'.last_update_ts = v.last_update_ts
    ∧ v'.total_shares = v.total_shares
    ∧ v'.authority = v.authority ∧ v'.token_mint = v.token_mint
    ∧ v'.reward_mint = v.reward_mint ∧ v'.reward_vault = v.reward_vault
    ∧ v'.flash_fee_bps = v.flash_fee_bps ∧ v'.fee_treasury = v.fee_treasury
    ∧ v'.callback_allowlist_enabled = v.callback_allowlist_enabled
    ∧ v'.callback_allowlist = v.callback_allowlist := by
  obtain ⟨hv, -, -⟩ := fund_rewards_ok_eq h
  subst hv
  by_cases hr : 0 < rate
  · simp [hr]
  · simp [hr]

/-- Witness for C8 at concrete inputs: funding 10 units at rate 4 into
the vault vX3 sets the rate and changes nothing else. -/
theorem fund_rewards_frame_witness :
    ({ vX3 with reward_rate := 4 }).reward_rate = (if 0 < 4 then 4 else vX3.reward_rate)
    ∧ ({ vX3 with reward_rate := 4 }).acc_reward_per_share = vX3.acc_reward_per_share
    ∧ ({ vX3 with reward_rate := 4 }).last_update_ts = vX3.last_update_ts
    ∧ ({ vX3 with reward_rate := 4 }).total_shares = vX3.total_shares
    ∧ ({ vX3 with reward_rate := 4 }).authority = vX3.authority
    ∧ ({ vX3 with reward_rate := 4 }).token_mint = vX3.token_mint
    ∧ ({ vX3 with reward_rate := 4 }).reward_mint = vX3.reward_mint
    ∧ ({ vX3 with reward_rate := 4 }).reward_vault = vX3.reward_vault
    ∧ ({ vX3 with reward_rate := 4 }).flash_fee_bps = vX3.flash_fee_bps
    ∧ ({ vX3 with reward_rate := 4 }).fee_treasury = vX3.fee_treasury
    ∧ ({ vX3 with reward_rate := 4 }).callback_allowlist_enabled
        = vX3.callback_allowlist_enabled
    ∧ ({ vX3 with reward_rate := 4 }).callback_allowlist = vX3.callback_allowlist :=
  fund_rewards_frame vX3 3 6 6 50 20 10 4 ({ vX3 with reward_rate := 4 }) 60 10
    (by decide)

/-- C9: when deposit runs on a position account that exists with zero
shares, the position is treated as brand new: the deposit is oblivious
to whatever reward_debt held (in particular a pending-reward sentinel
left by a withdraw-to-zero is discarded), and on success reward_debt is
rebuilt as shares_after * acc_reward_per_share. -/
theorem deposit_zero_shares_discards_reward_debt
    (v : Vault) (pos : UserPosition) (vb ub vk uk vtm utm amount : Nat)
    (now : Int) (d : Nat) (h0 : pos.shares = 0) :
    deposit ⟨v, { pos with reward_debt := d }, vb, ub⟩ vk uk vtm utm amount now
      = deposit ⟨v, pos, vb, ub⟩ vk uk vtm utm amount now
    ∧ (∀ s', deposit ⟨v, pos, vb, ub⟩ vk uk vtm utm amount now = .ok s' →
        s'.position.reward_debt
          = s'.position.shares * s'.vault.acc_reward_per_share) := by
  obtain ⟨pu, pv, ps, pd⟩ := pos
  simp only [UserPosition.shares] at h0
  subst h0
  constructor
  · unfold deposit
    simp
  · intro s' h
    unfold deposit at h
    split at h
    · exact absurd h (by simp)
    split at h
    · exact absurd h (by simp)
    split at h
    · exact absurd h (by simp)
    split at h
    · exact absurd h (by simp)
    · rename_i vault hvu
      split at h
      · exact absurd h (by simp)
      · rename_i pos1 hpos1
        split at h
        · exact absurd h (by simp)
        · rename_i shares hsh
          split at h
          · exact absurd h (by simp)
          split at h
          · exact absurd h (by simp)
          split at h
          · exact absurd h (by simp)
          · rename_i total2 ht2
            split at h
            · exact absurd h (by simp)
            · rename_i pshares hps
              split at h
              · exact absurd h (by simp)
              · rename_i debt hdebt
                injection h with h'
                subst h'
                unfold u128CheckedMul at hdebt
                split at hdebt
                · injection hdebt with hdebt'
                  simpa using hdebt'.symm
                · exact absurd hdebt (by simp)

/-- Post-state of the witness deposit for C9. -/
def depW9 : DepositState := ⟨{ vW2 with total_shares := 10 }, ⟨2, 1, 10, 0⟩, 10, 0⟩

/-- Witness for C9 at concrete inputs: a deposit of 10 onto a zero-share
position behaves identically whether the stored reward_debt is 77 or 0,
and rebuilds reward_debt as shares_after * acc_reward_per_share. -/
theorem deposit_zero_shares_discards_reward_debt_witness :
    (deposit ⟨vW2, ⟨2, 1, 0, 77⟩, 0, 10⟩ 1 2 5 5 10 0
       = deposit ⟨vW2, ⟨2, 1, 0, 0⟩, 0, 10⟩ 1 2 5 5 10 0)
    ∧ depW9.position.reward_debt
        = depW9.position.shares * depW9.vault.acc_reward_per_share := by
  have h := deposit_zero_shares_discards_reward_debt vW2 ⟨2, 1, 0, 0⟩ 0 10 1 2 5 5 10
    0 77 rfl
  exact ⟨h.1, h.2 depW9 (by decide)⟩

/-- A successful deposit never decreases the accumulator. -/
theorem deposit_ok_acc {st : DepositState} {vk uk vtm utm amount : Nat} {now : Int}
    {s' : DepositState} (h : deposit st vk uk vtm utm amount now = .ok s') :
    st.vault.acc_reward_per_share ≤ s'.vault.acc_reward_per_share := by
  unfold deposit at h
  split at h
  · exact absurd h (by simp)
  split at h
  · exact absurd h (by simp)
  split at h
  · exact absurd h (by simp)
  split at h
  · exact absurd h (by simp)
  · rename_i vault hvu
    split at h
    · exact absurd h (by simp)
    · split at h
      · exact absurd h (by simp)
      · split at h
        · exact absurd h (by simp)
        split at h
        · exact absurd h (by simp)
        split at h
        · exact absurd h (by simp)
        · split at h
          · exact absurd h (by simp)
          · split at h
            · exact absurd h (by simp)
            · injection h with h'
              subst h'
              simpa using (update_rewards_ok hvu).2.1

/-- A successful withdraw never decreases the accumulator. -/
theorem withdraw_ok_acc {st : DepositState} {vk uk sh : Nat} {now : Int}
    {wr : WithdrawResult} (h : withdraw st vk uk sh now = .ok wr) :
    st.vault.acc_reward_per_share ≤ wr.vault.acc_reward_per_share := by
  unfold withdraw at h
  split at h
  · exact absurd h (by simp)
  split at h
  · exact absurd h (by simp)
  split at h
  · exact absurd h (by simp)
  split at h
  · exact absurd h (by simp)
  split at h
  · exact absurd h (by simp)
  · rename_i vault hvu
    split at h
    · exact absurd h (by simp)
    · split at h
      · exact absurd h (by simp)
      split at h
      · exact absurd h (by simp)
      · split at h
        · exact absurd h (by simp)
        · split at h
          · exact absurd h (by simp)
          · split at h
            · split at h
              · exact absurd h (by simp)
              · injection h with h'
                subst h'
                simpa using (update_rewards_ok hvu).2.1
            · split at h
              · injection h with h'
                subst h'
                simpa using (update_rewards_ok hvu).2.1
              · injection h with h'
                subst h'
                simpa using (update_rewards_ok hvu).2.1

/-- A successful claim_rewards never decreases the accumulator. -/
theorem claim_rewards_ok_acc {st : ClaimState} {vk uk rvk rvm um : Nat} {now : Int}
    {cr : ClaimResult} (h : claim_rewards st vk uk rvk rvm um now = .ok cr) :
    st.vault.acc_reward_per_share ≤ cr.state.vault.acc_reward_per_share := by
  unfold claim_rewards at h
  split at h
  · exact absurd h (by simp)
  split at h
  · exact absurd h (by simp)
  split at h
  · exact absurd h (by simp)
  split at h
  · exact absurd h (by simp)
  split at h
  · exact absurd h (by simp)
  split at h
  · exact absurd h (by simp)
  · rename_i vault hvu
    split at h
    · exact absurd h (by simp)
    · split at h
      · exact absurd h (by simp)
      · split at h
        · split at h
          · exact absurd h (by simp)
          · split at h
            · split at h
              · exact absurd h (by simp)
              · injection h with h'
                subst h'
                simpa using (update_rewards_ok hvu).2.1
            · injection h with h'
              subst h'
              simpa using (update_rewards_ok hvu).2.1
        · injection h with h'
          subst h'
          simpa using (update_rewards_ok hvu).2.1

/-- flash_loan never writes the vault account: on success the returned
vault is the input vault. -/
theorem flash_loan_ok_vault {vault : Vault} {st : FlashState}
    {bk btm bto ftm fto ck amount : Nat} {cb : FlashState → Option FlashState}
    {o : Vault × FlashState × Nat}
    (h : flash_loan vault st bk btm bto ftm fto ck amount cb = .ok o) :
    o.1 = vault := by
  unfold flash_loan at h
  split at h
  · exact absurd h (by simp)
  · injection h with h'
    subst h'
    rfl

theorem applyTreasury_acc (v : Vault) (t : Option Nat) :
    (applyTreasury v t).acc_reward_per_share = v.acc_reward_per_share := by
  cases t <;> rfl

theorem applyEnabled_acc (v : Vault) (e : Option Bool) :
    (applyEnabled v e).acc_reward_per_share = v.acc_reward_per_share := by
  cases e <;> rfl

/-- A successful config update never touches the accumulator. -/
theorem update_flash_loan_config_ok_acc {v : Vault} {ak : Nat} {f tr : Option Nat}
    {en : Option Bool} {al : Option (List Nat)} {v' : Vault}
    (h : update_flash_loan_config v ak f tr en al = .ok v') :
    v'.acc_reward_per_share = v.acc_reward_per_share := by
  unfold update_flash_loan_config at h
  split at h
  · exact absurd h (by simp)
  · split at h
    · exact absurd h (by simp)
    · rename_i v1 hv1
      have hacc1 : v1.acc_reward_per_share = v.acc_reward_per_share := by
        split at hv1
        · rename_i f0
          split at hv1
          · exact absurd hv1 (by simp)
          · injection hv1 with hv1'
            subst hv1'
            rfl
        · injection hv1 with hv1'
          subst hv1'
          rfl
      split at h
      · rename_i l
        split at h
        · exact absurd h (by simp)
        · injection h with h'
          subst h'
          simpa [applyEnabled_acc, applyTreasury_acc] using hacc1
      · injection h with h'
        subst h'
        simpa [applyEnabled_acc, applyTreasury_acc] using hacc1

/-- C6: acc_reward_per_share is monotonically non-decreasing: every
operation on a vault (deposit, withdraw, claim_rewards, fund_rewards,
flash_loan, update_flash_loan_config) leaves it greater than or equal to
its value before the operation; an erroring operation reverts and leaves
the vault unchanged. -/
theorem acc_reward_per_share_monotone (v : Vault) :
    (∀ (pos : UserPosition) (vb ub vk uk vtm utm a : Nat) (now : Int),
      v.acc_reward_per_share
        ≤ (vaultAfter DepositState.vault v
            (deposit ⟨v, pos, vb, ub⟩ vk uk vtm utm a now)).acc_reward_per_share)
    ∧ (∀ (pos : UserPosition) (vb ub vk uk sh : Nat) (now : Int),
      v.acc_reward_per_share
        ≤ (vaultAfter WithdrawResult.vault v
            (withdraw ⟨v, pos, vb, ub⟩ vk uk sh now)).acc_reward_per_share)
    ∧ (∀ (pos : UserPosition) (rvb urb vk uk rvk rvm um : Nat) (now : Int),
      v.acc_reward_per_share
        ≤ (vaultAfter (fun r => r.state.vault) v
            (claim_rewards ⟨v, pos, rvb, urb⟩ vk uk rvk rvm um now)).acc_reward_per_share)
    ∧ (∀ (rvk rvm fm rvb fb a r : Nat),
      v.acc_reward_per_share
        ≤ (vaultAfter Prod.fst v
            (fund_rewards v rvk rvm fm rvb fb a r)).acc_reward_per_share)
    ∧ (∀ (fs : FlashState) (bk btm bto ftm fto ck a : Nat)
        (cb : FlashState → Option FlashState),
      v.acc_reward_per_share
        ≤ (vaultAfter Prod.fst v
            (flash_loan v fs bk btm bto ftm fto ck a cb)).acc_reward_per_share)
    ∧ (∀ (ak : Nat) (f tr : Option Nat) (en : Option Bool) (al : Option (List Nat)),
      v.acc_reward_per_share
        ≤ (vaultAfter id v
            (update_flash_loan_config v ak f tr en al)).acc_reward_per_share) := by
  refine ⟨?_, ?_, ?_, ?_, ?_, ?_⟩
  · intro pos vb ub vk uk vtm utm a now
    cases h : deposit ⟨v, pos, vb, ub⟩ vk uk vtm utm a now with
    | error e => simp [vaultAfter]
    | ok s => simpa [vaultAfter] using deposit_ok_acc h
  · intro pos vb ub vk uk sh now
    cases h : withdraw ⟨v, pos, vb, ub⟩ vk uk sh now with
    | error e => simp [vaultAfter]
    | ok s => simpa [vaultAfter] using withdraw_ok_acc h
  · intro pos rvb urb vk uk rvk rvm um now
    cases h : claim_rewards ⟨v, pos, rvb, urb⟩ vk uk rvk rvm um now with
    | error e => simp [vaultAfter]
    | ok s => simpa [vaultAfter] using claim_rewards_ok_acc h
  · intro rvk rvm fm rvb fb a r
    cases h : fund_rewards v rvk rvm fm rvb fb a r with
    | error e => simp [vaultAfter]
    | ok s =>
      obtain ⟨s1, s2, s3⟩ := s
      obtain ⟨hv, -, -⟩ := fund_rewards_ok_eq h
      subst hv
      by_cases hr : 0 < r
      · simp [vaultAfter, hr]
      · simp [vaultAfter, hr]
  · intro fs bk btm bto ftm fto ck a cb
    cases h : flash_loan v fs bk btm bto ftm fto ck a cb with
    | error e => simp [vaultAfter]
    | ok o => simp [vaultAfter, flash_loan_ok_vault h]
  · intro ak f tr en al
    cases h : update_flash_loan_config v ak f tr en al with
    | error e => simp [vaultAfter]
    | ok v' => simp [vaultAfter, update_flash_loan_config_ok_acc h]

/-- Reduction of flash_loan_core once every validation has passed: what
remains is the disbursement, the opaque callback, the repayment check
against balance_before + fee, and the fee routing. -/
theorem flash_loan_core_eval (vault : Vault) (st : FlashState)
    (bk btm bto ftm fto ck amount : Nat) (callback : FlashState → Option FlashState)
    (hA : ¬ amount = 0) (hconf : ¬ vault.fee_treasury = 0)
    (hbtm : btm = vault.token_mint) (hbto : bto = bk)
    (hftm : ftm = vault.token_mint) (hfto : fto = vault.fee_treasury)
    (hallow : vault.callback_allowlist_enabled = false)
    (hbal : ¬ st.vault_balance < amount)
    (hmul : amount * vault.flash_fee_bps < U128) :
    flash_loan_core vault st bk btm bto ftm fto ck amount callback =
      match callback ⟨st.vault_balance - amount, st.borrower_balance + amount,
                      st.treasury_balance⟩ with
      | none => .error .CallbackFailed
      | some after =>
        match u64CheckedAdd st.vault_balance
            (amount * vault.flash_fee_bps / 10000 % U64) with
        | .error e => .error e
        | .ok required =>
          if after.vault_balance < required then .error .InsufficientRepayment
          else if 0 < amount * vault.flash_fee_bps / 10000 % U64 then
            if after.vault_balance < amount * vault.flash_fee_bps / 10000 % U64 then
              .error .TokenTransferFailed
            else
              .ok (⟨after.vault_balance - amount * vault.flash_fee_bps / 10000 % U64,
                    after.borrower_balance,
                    after.treasury_balance
                      + amount * vault.flash_fee_bps / 10000 % U64⟩,
                   amount * vault.flash_fee_bps / 10000 % U64)
          else .ok (after, amount * vault.flash_fee_bps / 10000 % U64) := by
  unfold flash_loan_core
  rw [if_neg hA, if_neg hconf, if_neg (by simp [hbtm]), if_neg (by simp [hbto]),
      if_neg (by simp [hftm]), if_neg (by simp [hfto]), if_neg (by simp [hallow]),
      if_neg hbal]
  unfold u128CheckedMul
  rw [if_pos hmul]

/-- C1: for a validated flash_loan of amount A at configured fee-bps F,
the fee charged is floor(A * F / 10000) computed in double-width
arithmetic; with the callback's post-state in hand, the operation
succeeds exactly when the re-read reserve balance satisfies
balance_after >= balance_before + fee; a callback repaying exactly
A + fee succeeds, while repaying one unit less fails with the repayment
error, every effect of the operation being reverted on error (the
balances keep their pre-state values). -/
theorem flash_loan_fee_and_repayment (vault : Vault) (st : FlashState)
    (bk btm bto ftm fto ck amount : Nat)
    (callback : FlashState → Option FlashState) (after : FlashState)
    (hA : 0 < amount) (hA64 : amount < U64)
    (hconf : vault.fee_treasury ≠ 0)
    (hbtm : btm = vault.token_mint) (hbto : bto = bk)
    (hftm : ftm = vault.token_mint) (hfto : fto = vault.fee_treasury)
    (hallow : vault.callback_allowlist_enabled = false)
    (hbal : amount ≤ st.vault_balance)
    (hbps : vault.flash_fee_bps ≤ 10000)
    (hreq : st.vault_balance + amount * vault.flash_fee_bps / 10000 < U64)
    (hcb : callback ⟨st.vault_balance - amount, st.borrower_balance + amount,
                     st.treasury_balance⟩ = some after)
    (hcover : amount * vault.flash_fee_bps / 10000 ≤ st.borrower_balance) :
    ((flash_loan vault st bk btm bto ftm fto ck amount callback).isOk
        ↔ st.vault_balance + amount * vault.flash_fee_bps / 10000
            ≤ after.vault_balance)
    ∧ (∀ o, flash_loan vault st bk btm bto ftm fto ck amount callback = .ok o →
        o.2.2 = amount * vault.flash_fee_bps / 10000)
    ∧ ((flash_loan vault st bk btm bto ftm fto ck amount
          (repayCallback (amount + amount * vault.flash_fee_bps / 10000))).isOk
        = true)
    ∧ (flash_loan vault st bk btm bto ftm fto ck amount
          (repayCallback (amount + amount * vault.flash_fee_bps / 10000 - 1))
        = .error .InsufficientRepayment)
    ∧ (flashStateAfter st
        (flash_loan vault st bk btm bto ftm fto ck amount
          (repayCallback (amount + amount * vault.flash_fee_bps / 10000 - 1))) = st) := by
  have hfee_le : amount * vault.flash_fee_bps / 10000 ≤ amount := by
    have h1 : amount * vault.flash_fee_bps ≤ amount * 10000 :=
      Nat.mul_le_mul_left _ hbps
    have h2 : amount * vault.flash_fee_bps / 10000 ≤ amount * 10000 / 10000 :=
      Nat.div_le_div_right h1
    have h3 : amount * 10000 / 10000 = amount := Nat.mul_div_cancel amount (by decide)
    omega
  have hfeeU : amount * vault.flash_fee_bps / 10000 < U64 := lt_of_le_of_lt hfee_le hA64
  have hmod : amount * vault.flash_fee_bps / 10000 % U64
      = amount * vault.flash_fee_bps / 10000 := Nat.mod_eq_of_lt hfeeU
  have hmul : amount * vault.flash_fee_bps < U128 := by
    have h1 : amount * vault.flash_fee_bps ≤ amount * 10000 :=
      Nat.mul_le_mul_left _ hbps
    have h2 : amount * 10000 < U64 * 10000 :=
      (Nat.mul_lt_mul_right (by decide)).mpr hA64
    have h3 : U64 * 10000 < U128 := by decide
    omega
  have hnb : ¬ st.vault_balance < amount := by omega
  have hAne : ¬ amount = 0 := by omega
  have hev := flash_loan_core_eval vault st bk btm bto ftm fto ck amount callback
    hAne hconf hbtm hbto hftm hfto hallow hnb hmul
  have hrc2 : repayCallback (amount + amount * vault.flash_fee_bps / 10000)
      ⟨st.vault_balance - amount, st.borrower_balance + amount, st.treasury_balance⟩
      = some ⟨st.vault_balance + amount * vault.flash_fee_bps / 10000,
              st.borrower_balance - amount * vault.flash_fee_bps / 10000,
              st.treasury_balance⟩ := by
    unfold repayCallback
    rw [if_pos (by simp only []; omega)]
    have e1 : st.vault_balance - amount
        + (amount + amount * vault.flash_fee_bps / 10000)
        = st.vault_balance + amount * vault.flash_fee_bps / 10000 := by omega
    have e2 : st.borrower_balance + amount
        - (amount + amount * vault.flash_fee_bps / 10000)
        = st.borrower_balance - amount * vault.flash_fee_bps / 10000 := by omega
    rw [e1, e2]
  have hrc3 : repayCallback (amount + amount * vault.flash_fee_bps / 10000 - 1)
      ⟨st.vault_balance - amount, st.borrower_balance + amount, st.treasury_balance⟩
      = some ⟨st.vault_balance + amount * vault.flash_fee_bps / 10000 - 1,
              st.borrower_balance + amount
                - (amount + amount * vault.flash_fee_bps / 10000 - 1),
              st.treasury_balance⟩ := by
    unfold repayCallback
    rw [if_pos (by simp only []; omega)]
    have e1 : st.vault_balance - amount
        + (amount + amount * vault.flash_fee_bps / 10000 - 1)
        = st.vault_balance + amount * vault.flash_fee_bps / 10000 - 1 := by omega
    rw [e1]
  have hev2 := flash_loan_core_eval vault st bk btm bto ftm fto ck amount
    (repayCallback (amount + amount * vault.flash_fee_bps / 10000))
    hAne hconf hbtm hbto hftm hfto hallow hnb hmul
  have hev3 := flash_loan_core_eval vault st bk btm bto ftm fto ck amount
    (repayCallback (amount + amount * vault.flash_fee_bps / 10000 - 1))
    hAne hconf hbtm hbto hftm hfto hallow hnb hmul
  have herr : flash_loan vault st bk btm bto ftm fto ck amount
      (repayCallback (amount + amount * vault.flash_fee_bps / 10000 - 1))
      = .error .InsufficientRepayment := by
    unfold flash_loan
    rw [hev3, hrc3]
    unfold u64CheckedAdd
    rw [hmod, if_pos hreq]
    have hlt3 : st.vault_balance + amount * vault.flash_fee_bps / 10000 - 1
        < st.vault_balance + amount * vault.flash_fee_bps / 10000 := by omega
    simp [hlt3]
  refine ⟨?_, ?_, ?_, herr, by rw [herr]; rfl⟩
  · unfold flash_loan
    rw [hev, hcb]
    unfold u64CheckedAdd
    rw [hmod, if_pos hreq]
    simp only []
    by_cases hlt : after.vault_balance
        < st.vault_balance + amount * vault.flash_fee_bps / 10000
    · rw [if_pos hlt]
      simp [Except.isOk, Except.toBool]
      omega
    · rw [if_neg hlt]
      have h2 : ¬ (after.vault_balance < amount * vault.flash_fee_bps / 10000) := by
        omega
      by_cases hf : 0 < amount * vault.flash_fee_bps / 10000
      · rw [if_pos hf, if_neg h2]
        simp [Except.isOk, Except.toBool]
        omega
      · rw [if_neg hf]
        simp [Except.isOk, Except.toBool]
        omega
  · intro o ho
    unfold flash_loan at ho
    rw [hev, hcb] at ho
    unfold u64CheckedAdd at ho
    rw [hmod, if_pos hreq] at ho
    simp only [] at ho
    split at ho
    · exact absurd ho (by simp)
    · rename_i o1 heq
      injection ho with ho'
      subst ho'
      split at heq
      · exact absurd heq (by simp)
      · split at heq
        · split at heq
          · exact absurd heq (by simp)
          · injection heq with heq'
            subst heq'
            rfl
        · injection heq with heq'
          subst heq'
          rfl
  · unfold flash_loan
    rw [hev2, hrc2]
    unfold u64CheckedAdd
    rw [hmod, if_pos hreq]
    have hnf : ¬ (st.vault_balance + amount * vault.flash_fee_bps / 10000
        < st.vault_balance + amount * vault.flash_fee_bps / 10000) := by omega
    have hnf2 : ¬ (st.vault_balance + amount * vault.flash_fee_bps / 10000
        < amount * vault.flash_fee_bps / 10000) := by omega
    by_cases hf : 0 < amount * vault.flash_fee_bps / 10000
    · simp [hnf, hnf2, hf, Except.isOk, Except.toBool]
    · simp [hnf, hnf2, hf, Except.isOk, Except.toBool]

/-- Vault used by the C1 witness: fee 100 bps, treasury key 7. -/
def wvC1 : Vault := ⟨0, 5, 0, 0, 0, 0, 6, 3, 100, 7, false, []⟩

/-- Witness for C1 at concrete inputs: borrowing 200 at 100 bps (fee 2)
from a reserve of 1000, repaying exactly 202 succeeds and repaying 201
fails with the repayment error. -/
theorem flash_loan_fee_and_repayment_witness :
    ((flash_loan wvC1 ⟨1000, 50, 0⟩ 9 5 9 5 7 0 200
        (repayCallback (200 + 200 * wvC1.flash_fee_bps / 10000))).isOk = true)
    ∧ (flash_loan wvC1 ⟨1000, 50, 0⟩ 9 5 9 5 7 0 200
        (repayCallback (200 + 200 * wvC1.flash_fee_bps / 10000 - 1))
      = .error .InsufficientRepayment) := by
  have h := flash_loan_fee_and_repayment wvC1 ⟨1000, 50, 0⟩ 9 5 9 5 7 0 200
    (repayCallback 202) ⟨1002, 48, 0⟩ (by decide) (by decide) (by decide) rfl rfl rfl
    rfl rfl (by decide) (by decide) (by decide) (by decide) (by decide)
  exact ⟨h.2.2.1, h.2.2.2.1⟩

end VaultCore
